import Mathlib

/-!
Verification of the BART multiplayer leaderboard relay.

This file gives a shallow embedding of the leaderboard relay implemented in
`src/Server/Local Server Script.py` (the TCP broadcast server) and of the
`NetworkClient` class in `src/BART.py` (the experiment-side relay client),
and proves properties of the specified behaviour against that embedding.

Modelling conventions:
* Parsed JSON values (the result of Python's `json.loads`) are the inductive
  type `JVal`.  Integer JSON numbers are `Int`; floats are not needed by the
  protocol and are not modelled.
* Python exceptions are modelled by explicit outcome data: a handler step
  records whether an exception escaped the inner `try` (which terminates that
  connection's read loop and closes the connection in the `finally` block).
* Network sends that may fail are driven by an explicit failure oracle
  (`sendFails : Nat → Bool`); socket reads are driven by explicit event lists.
* Thread interleavings are not modelled: each per-connection handler step is
  analysed as an atomic sequential step, which is the granularity at which the
  specified properties are stated.
-/

/-- JSON values as produced by `json.loads`.  Object fields keep their textual
order; a duplicated key is resolved by `lookupLast` below (last one wins, as in
Python's dict construction). -/
inductive JVal where
  | jnull
  | jbool (b : Bool)
  | jnum (n : Int)
  | jstr (s : String)
  | jarr (elems : List JVal)
  | jobj (fields : List (String × JVal))

/-- Digit-string accumulator for `pyIntOfString`. -/
def pyDigitsAux : List Char → Nat → Option Nat
  | [], acc => some acc
  | c :: cs, acc =>
    if c.isDigit then pyDigitsAux cs (acc * 10 + (c.toNat - 48)) else none

/-- Python's `int(<str>)`: an optional sign followed by decimal digits parses;
anything else raises `ValueError` (modelled as `none`).  Surrounding
whitespace and digit-group underscores, which Python also accepts, are not
modelled; no protocol message uses them. -/
def pyIntOfString (s : String) : Option Int :=
  match s.data with
  | [] => none
  | '-' :: cs =>
    if cs = [] then none else (pyDigitsAux cs 0).map (fun n => -(n : Int))
  | '+' :: cs =>
    if cs = [] then none else (pyDigitsAux cs 0).map (fun n => (n : Int))
  | cs => (pyDigitsAux cs 0).map (fun n => (n : Int))

/-- Python's `int(x)` on a parsed JSON value: integers convert to themselves,
booleans to 0/1, strings through `pyIntOfString`; `null`, arrays and objects
raise `TypeError` (modelled as `none`). -/
def pyInt : JVal → Option Int
  | .jnum n => some n
  | .jbool b => some (if b then 1 else 0)
  | .jstr s => pyIntOfString s
  | _ => none

/-- Field lookup in a parsed JSON object, `x[k]`.  With duplicated keys the
last occurrence wins, matching `json.loads` building a Python dict. -/
def lookupLast (k : String) : List (String × JVal) → Option JVal
  | [] => none
  | (k0, v) :: rest =>
    match lookupLast k rest with
    | some r => some r
    | none => if k0 = k then some v else none

/-- The server's sort key `int(x["pumps"])` (line 34 of the server script).
`none` means the key computation raises (`TypeError` on a non-object or a
non-convertible value, `KeyError` on a missing field). -/
def pumpsKey : JVal → Option Int
  | .jobj fields => (lookupLast "pumps" fields).bind pyInt
  | _ => none

/-- Total version of the sort key, valid on entries whose key computation
succeeds; used to phrase the ordering relation. -/
def keyOf (x : JVal) : Int := (pumpsKey x).getD 0

/-- `True` when sorting the list would compute every entry's key without
raising; `sorted(..., key=lambda x: int(x["pumps"]))` evaluates all keys,
in list order, before comparing. -/
def allKeysOk (lb : List JVal) : Bool :=
  lb.all (fun x => (pumpsKey x).isSome)

/-- The descending comparison used by
`sorted(leaderbord, key=lambda x: int(x["pumps"]), reverse=True)`:
`a` may precede `b` when `a`'s key is at least `b`'s. -/
def rge (a b : JVal) : Prop := keyOf b ≤ keyOf a

instance : DecidableRel rge := fun a b =>
  inferInstanceAs (Decidable (keyOf b ≤ keyOf a))

instance : IsTotal JVal rge :=
  ⟨fun a b => (Int.le_total (keyOf b) (keyOf a)).imp id id⟩

instance : IsTrans JVal rge :=
  ⟨fun _ _ _ hab hbc => le_trans hbc hab⟩

/-- Python's `sorted(..., reverse=True)` is a stable descending sort; stable
insertion sort computes the same list. -/
def sortDesc (lb : List JVal) : List JVal := lb.insertionSort rge

/-- `MAX_LEADERBOARD = 8` (server script, line 9). -/
def MAX_LEADERBOARD : Nat := 8

/-- `MAX_PLAYERS = 5` (server script, line 8). -/
def MAX_PLAYERS : Nat := 5

/-- The Ranking Store mutation on a successfully parsed update (server script
lines 32–34): append the new entry, re-sort descending by `int(x["pumps"])`,
truncate to `MAX_LEADERBOARD`.  This embeds the success path, where every
entry's key computation succeeds. -/
def recordUpdate (lb : List JVal) (e : JVal) : List JVal :=
  (sortDesc (lb ++ [e])).take MAX_LEADERBOARD

example : recordUpdate [] (.jobj [("id", .jnum 1), ("pumps", .jnum 3)]) =
    [.jobj [("id", .jnum 1), ("pumps", .jnum 3)]] := rfl

example :
    recordUpdate [JVal.jobj [("id", .jnum 1), ("pumps", .jnum 3)]]
        (.jobj [("id", .jnum 2), ("pumps", .jnum 9)]) =
      [.jobj [("id", .jnum 2), ("pumps", .jnum 9)],
       .jobj [("id", .jnum 1), ("pumps", .jnum 3)]] := rfl

/-- Classification of one inbound payload, i.e. of one `conn.recv(1024)`
result, by what `data.decode()` / `json.loads` do with it:
* `notUtf8`: `data.decode()` raises `UnicodeDecodeError`;
* `notJson s`: decoding yields `s` but `json.loads(s)` raises
  `json.JSONDecodeError`;
* `jsonVal v`: decoding and parsing succeed with value `v`. -/
inductive Payload where
  | notUtf8
  | notJson (s : String)
  | jsonVal (v : JVal)

/-- Connections are identified by numbers standing for the socket objects. -/
abbrev ConnId := Nat

/-- The broadcast loop `for c in clients: c.sendall(...)` (server script lines
38–39), driven by a per-connection send-failure oracle.  Returns the
recipients whose `sendall` completed and, if some `sendall` raised, the first
connection at which it did; the loop stops there, so connections after it
receive nothing. -/
def deliver (sendFails : ConnId → Bool) : List ConnId → List ConnId × Option ConnId
  | [] => ([], none)
  | c :: rest =>
    if sendFails c then ([], some c)
    else
      let r := deliver sendFails rest
      (c :: r.1, r.2)

/-- Observable outcome of handling one inbound payload in `handle_client`:
the leaderboard global after the step, the broadcast recipients actually
reached, whether an exception escaped the inner `try` (so the outer handler
terminates this connection's read loop and its `finally` block closes and
unregisters the connection), and whether the `json.JSONDecodeError` branch
logged and dropped the message. -/
structure StepResult where
  leaderbord : List JVal
  delivered : List ConnId
  connClosed : Bool
  loggedParseError : Bool

/-- One iteration of the per-connection read loop body of `handle_client`
(server script lines 26–45) on a nonempty `recv` result:
* decode failure raises outside the `except json.JSONDecodeError` branch and
  escapes the inner `try`;
* JSON parse failure is caught: log and continue, state unchanged;
* on a parsed value, `leaderbord.append` mutates the global in place, then the
  sort either raises while computing a key (leaving the appended value in the
  global list and escaping the inner `try`) or succeeds, after which the
  truncated board is stored and broadcast to every registered client; a
  failing `sendall` raises and also escapes the inner `try`. -/
def handleData (clients : List ConnId) (sendFails : ConnId → Bool)
    (lb : List JVal) (p : Payload) : StepResult :=
  match p with
  | .notUtf8 =>
    { leaderbord := lb, delivered := [], connClosed := true,
      loggedParseError := false }
  | .notJson _ =>
    { leaderbord := lb, delivered := [], connClosed := false,
      loggedParseError := true }
  | .jsonVal v =>
    let appended := lb ++ [v]
    if allKeysOk appended then
      let board := (sortDesc appended).take MAX_LEADERBOARD
      let sent := deliver sendFails clients
      { leaderbord := board, delivered := sent.1,
        connClosed := sent.2.isSome, loggedParseError := false }
    else
      { leaderbord := appended, delivered := [], connClosed := true,
        loggedParseError := false }

/-- The per-connection read loop over a list of inbound payloads: processes
payloads until one makes the handler's body raise, reporting the final
leaderboard, whether the loop terminated by an escaped exception, and how
many payloads were consumed. -/
def readLoop (clients : List ConnId) (sendFails : ConnId → Bool) :
    List JVal → List Payload → List JVal × Bool × Nat
  | lb, [] => (lb, false, 0)
  | lb, p :: rest =>
    let r := handleData clients sendFails lb p
    if r.connClosed then (r.leaderbord, true, 1)
    else
      let t := readLoop clients sendFails r.leaderbord rest
      (t.1, t.2.1, t.2.2 + 1)

/-- The `finally` block of `handle_client` (server script lines 45–51) runs
when the read loop exits: the connection is closed and removed from
`clients`. -/
def afterHandler (clients : List ConnId) (sender : ConnId)
    (r : StepResult) : List ConnId :=
  if r.connClosed then clients.erase sender else clients

/-- The fixed rejection text sent to a connection accepted while the server is
full (server script line 81). -/
def rejectionMessage : String := "Server is full. Try again later."

/-- Events at the accept-loop/registry level: a new connection arriving, or a
registered connection disconnecting (its handler's `finally` block). -/
inductive SrvEvent where
  | connect (c : ConnId)
  | disconnect (c : ConnId)

/-- Connection Registry and accept-loop state: the `clients` list, the
`next_player_id` counter, and a history of (connection, player id)
registrations in the order they happened (ghost data recording every
identifier ever assigned, for lifetime-uniqueness statements). -/
structure RegState where
  clients : List ConnId
  next_player_id : Nat
  assigned : List (ConnId × Nat)

/-- Initial server state: no clients, `next_player_id = 1`. -/
def initState : RegState :=
  { clients := [], next_player_id := 1, assigned := [] }

/-- What the accept loop does with one event's connection: register it and
start a handler (which assigns the player id), or send the rejection text and
close. -/
inductive ConnAction where
  | registered (pid : Nat)
  | rejected (msg : String)

/-- One accept-loop iteration (server script lines 73–82) combined with the
id assignment at the top of `handle_client` (lines 13–19): below capacity the
connection is appended to `clients` and receives the next player id; at
capacity it is sent `rejectionMessage` and closed, never registered.
`disconnect` is the handler's `finally` block: `clients.remove(conn)`; the id
counter is untouched. -/
def srvStep (st : RegState) (ev : SrvEvent) : RegState × Option ConnAction :=
  match ev with
  | .connect c =>
    if st.clients.length < MAX_PLAYERS then
      ({ clients := st.clients ++ [c],
         next_player_id := st.next_player_id + 1,
         assigned := st.assigned ++ [(c, st.next_player_id)] },
       some (.registered st.next_player_id))
    else
      (st, some (.rejected rejectionMessage))
  | .disconnect c =>
    ({ st with clients := st.clients.erase c }, none)

/-- Fold of the accept loop over an event list, keeping the per-connection
actions it took. -/
def srvRun (st : RegState) : List SrvEvent → RegState × List (ConnId × ConnAction)
  | [] => (st, [])
  | ev :: evs =>
    let s := srvStep st ev
    let t := srvRun s.1 evs
    (t.1,
      (match ev, s.2 with
       | .connect c, some a => [(c, a)]
       | _, _ => []) ++ t.2)

/-- All states the registry passes through while folding an event list,
including the initial and final ones. -/
def srvTrace (st : RegState) : List SrvEvent → List RegState
  | [] => [st]
  | ev :: evs => st :: srvTrace (srvStep st ev).1 evs

mutual

/-- Python's `json.dumps` with its default separators. -/
def jsonDumps : JVal → String
  | .jnull => "null"
  | .jbool b => if b then "true" else "false"
  | .jnum n => toString n
  | .jstr s => "\"" ++ s ++ "\""
  | .jarr elems => "[" ++ jsonDumpsElems elems ++ "]"
  | .jobj fields => "\x7b" ++ jsonDumpsFields fields ++ "\x7d"

/-- Comma-joined serialization of array elements. -/
def jsonDumpsElems : List JVal → String
  | [] => ""
  | [v] => jsonDumps v
  | v :: rest => jsonDumps v ++ ", " ++ jsonDumpsElems rest

/-- Comma-joined serialization of object fields. -/
def jsonDumpsFields : List (String × JVal) → String
  | [] => ""
  | [(k, v)] => "\"" ++ k ++ "\": " ++ jsonDumps v
  | (k, v) :: rest =>
    "\"" ++ k ++ "\": " ++ jsonDumps v ++ ", " ++ jsonDumpsFields rest

end

/-- A Python exception caught by `except Exception` (every network error the
socket layer raises is such an exception). -/
structure PyErr where
  msg : String

/-- Observable effect of `NetworkClient.send_update(pumps)` (BART.py lines
79–84), given the outcome of the attempted `self.sock.sendall`: the payload
the call serialized and tried to write, and the lines it printed.  The result
lives in `Except PyErr` so that "raises to the caller" is representable; the
body wraps the write in `try/except Exception`, so the error arm records the
log and returns. -/
def send_update (player_id : JVal) (pumps : Int)
    (sendallOutcome : Except PyErr Unit) : Except PyErr (String × List String) :=
  let msg := JVal.jobj [("id", player_id), ("pumps", .jnum pumps)]
  let payload := jsonDumps msg
  match sendallOutcome with
  | .ok _ => .ok (payload, [])
  | .error e => .ok (payload, ["[ERROR] Sending failed: " ++ e.msg])

/-- Client-side listener state: the `running` flag and the cached leaderboard
value last stored by `listen_for_updates` (initially the empty list). -/
structure NetClientState where
  running : Bool
  leaderboard : JVal

/-- One `recv` result observed by the background listener:
* `msg p`: nonempty bytes classified as in `Payload`;
* `empty`: `recv` returns `b''` — what a stream socket yields after the peer
  closes the connection;
* `fail`: `recv` raises (e.g. the socket was closed locally while the read
  was blocked, or the transport errored). -/
inductive ListenEvent where
  | msg (p : Payload)
  | empty
  | fail

/-- One iteration of the `listen_for_updates` body (BART.py lines 68–77):
everything sits in a `try/except Exception` whose handler sets
`self.running = False`.  A raising `recv` hits the handler; empty bytes fail
the `if data:` test and the iteration does nothing; nonempty bytes are
decoded and parsed inside the `try`, so a decode or parse failure also hits
the handler, while a parsed value replaces the cached leaderboard. -/
def listenStep (st : NetClientState) (ev : ListenEvent) : NetClientState :=
  match ev with
  | .fail => { st with running := false }
  | .empty => st
  | .msg (.jsonVal v) => { st with leaderboard := v }
  | .msg _ => { st with running := false }

/-- The listener's `while self.running:` loop over a stream of `recv`
results; returns the final state and the number of reads issued (events
consumed).  Once `running` is false no further read happens. -/
def listenLoop (st : NetClientState) : List ListenEvent → NetClientState × Nat
  | [] => (st, 0)
  | ev :: rest =>
    if st.running then
      let t := listenLoop (listenStep st ev) rest
      (t.1, t.2 + 1)
    else (st, 0)

/-! Ranking Store lemmas. -/

lemma sortDesc_sorted (l : List JVal) : List.Sorted rge (sortDesc l) :=
  List.sorted_insertionSort rge l

lemma sortDesc_perm (l : List JVal) : (sortDesc l).Perm l :=
  List.perm_insertionSort rge l

lemma recordUpdate_sorted (lb : List JVal) (e : JVal) :
    List.Sorted rge (recordUpdate lb e) :=
  List.Pairwise.sublist (List.take_sublist _ _) (sortDesc_sorted (lb ++ [e]))

lemma recordUpdate_length (lb : List JVal) (e : JVal) :
    (recordUpdate lb e).length = min MAX_LEADERBOARD (lb.length + 1) := by
  simp [recordUpdate, List.length_take, (sortDesc_perm (lb ++ [e])).length_eq]

lemma recordUpdate_mem (lb : List JVal) (e : JVal) {x : JVal}
    (hx : x ∈ recordUpdate lb e) : x ∈ lb ∨ x = e := by
  have h1 : x ∈ sortDesc (lb ++ [e]) :=
    (List.take_sublist _ _).mem hx
  have h2 : x ∈ lb ++ [e] := (sortDesc_perm (lb ++ [e])).mem_iff.mp h1
  rcases List.mem_append.mp h2 with h | h
  · exact Or.inl h
  · exact Or.inr (List.mem_singleton.mp h)

lemma recordUpdate_mem_of_small (lb : List JVal) (e : JVal)
    (hlen : lb.length < MAX_LEADERBOARD) {x : JVal} (hx : x ∈ lb ++ [e]) :
    x ∈ recordUpdate lb e := by
  have hall : (sortDesc (lb ++ [e])).length ≤ MAX_LEADERBOARD := by
    have := (sortDesc_perm (lb ++ [e])).length_eq
    simp only [List.length_append, List.length_singleton] at this
    omega
  have : recordUpdate lb e = sortDesc (lb ++ [e]) := by
    simp [recordUpdate, List.take_of_length_le hall]
  rw [this]
  exact (sortDesc_perm (lb ++ [e])).mem_iff.mpr hx

lemma foldl_recordUpdate_sorted (us : List JVal) :
    ∀ lb : List JVal, List.Sorted rge lb →
      List.Sorted rge (us.foldl recordUpdate lb) := by
  induction us with
  | nil => intro lb h; simpa using h
  | cons u us ih =>
    intro lb _
    simpa using ih (recordUpdate lb u) (recordUpdate_sorted lb u)

lemma foldl_recordUpdate_length (us : List JVal) :
    ∀ lb : List JVal, lb.length ≤ MAX_LEADERBOARD →
      (us.foldl recordUpdate lb).length =
        min MAX_LEADERBOARD (lb.length + us.length) := by
  induction us with
  | nil =>
    intro lb h
    simp only [List.foldl_nil, List.length_nil, Nat.add_zero]
    omega
  | cons u us ih =>
    intro lb h
    have hstep := recordUpdate_length lb u
    have hle : (recordUpdate lb u).length ≤ MAX_LEADERBOARD := by omega
    have := ih (recordUpdate lb u) hle
    simp only [List.foldl_cons, List.length_cons] at this ⊢
    rw [this, hstep]
    simp only [MAX_LEADERBOARD] at *
    omega

/-- A dropped entry ranks no higher than every kept entry: the result is a
prefix of the descending-sorted list, so whatever is cut away lies in the
suffix, below everything kept. -/
lemma recordUpdate_dropped_lowest (lb : List JVal) (e : JVal) {x : JVal}
    (hx : x ∈ lb ++ [e]) (hnot : x ∉ recordUpdate lb e) :
    ∀ y ∈ recordUpdate lb e, keyOf x ≤ keyOf y := by
  intro y hy
  set s := sortDesc (lb ++ [e]) with hs
  have hxs : x ∈ s := (sortDesc_perm (lb ++ [e])).mem_iff.mpr hx
  have hsplit : s = s.take MAX_LEADERBOARD ++ s.drop MAX_LEADERBOARD :=
    (List.take_append_drop _ _).symm
  have hxdrop : x ∈ s.drop MAX_LEADERBOARD := by
    rcases List.mem_append.mp (hsplit ▸ hxs) with h | h
    · exact absurd h hnot
    · exact h
  have hsorted : List.Sorted rge s := sortDesc_sorted (lb ++ [e])
  have hpair := hsorted
  rw [List.Sorted, hsplit, List.pairwise_append] at hpair
  exact hpair.2.2 y hy x hxdrop

/-- C1.  For every sequence of `recordUpdate` calls, each handling a received
ScoreUpdate (an entry whose `int(x["pumps"])` key computation succeeds, the
domain on which lines 32–34 of the server script run without raising), the
Ranking Store's snapshot is sorted descending by the pumps key, its length is
the number of updates capped at `MAX_LEADERBOARD = 8`, and whenever an
insertion drops entries, each dropped entry ranks no higher than every kept
entry. -/
theorem c1_snapshot_sorted_and_bounded (us : List JVal)
    (_hkeys : ∀ u ∈ us, (pumpsKey u).isSome) :
    List.Sorted rge (us.foldl recordUpdate []) ∧
    (us.foldl recordUpdate []).length = min MAX_LEADERBOARD us.length ∧
    (us.foldl recordUpdate []).length ≤ MAX_LEADERBOARD ∧
    (∀ lb : List JVal, ∀ e : JVal, ∀ x ∈ lb ++ [e],
      x ∉ recordUpdate lb e → ∀ y ∈ recordUpdate lb e, keyOf x ≤ keyOf y) := by
  refine ⟨foldl_recordUpdate_sorted us [] (by simp [List.Sorted]), ?_, ?_, ?_⟩
  · have := foldl_recordUpdate_length us [] (by simp [MAX_LEADERBOARD])
    simpa using this
  · have := foldl_recordUpdate_length us [] (by simp [MAX_LEADERBOARD])
    simp only [List.length_nil, Nat.zero_add] at this
    omega
  · intro lb e x hx hnot
    exact recordUpdate_dropped_lowest lb e hx hnot

/-- Concrete instantiation of `c1_snapshot_sorted_and_bounded` on a run of
three valid updates. -/
theorem c1_witness :
    List.Sorted rge
      ([JVal.jobj [("id", .jnum 1), ("pumps", .jnum 4)],
        JVal.jobj [("id", .jnum 2), ("pumps", .jnum 9)],
        JVal.jobj [("id", .jnum 3), ("pumps", .jnum 6)]].foldl recordUpdate []) ∧
    ([JVal.jobj [("id", .jnum 1), ("pumps", .jnum 4)],
      JVal.jobj [("id", .jnum 2), ("pumps", .jnum 9)],
      JVal.jobj [("id", .jnum 3), ("pumps", .jnum 6)]].foldl
        recordUpdate []).length = 3 := by
  have h := c1_snapshot_sorted_and_bounded
      [JVal.jobj [("id", .jnum 1), ("pumps", .jnum 4)],
       JVal.jobj [("id", .jnum 2), ("pumps", .jnum 9)],
       JVal.jobj [("id", .jnum 3), ("pumps", .jnum 6)]] (by decide)
  exact ⟨h.1, by simpa using h.2.1⟩

/-- C7.  The Ranking Store is mutated only through `recordUpdate`, and an
update never edits an existing entry: every entry of the result is an
unchanged entry of the old list or the newly appended one; below capacity the
new entry is present and every old entry survives (so a player already on the
board keeps its old entry next to the new one); and on a concrete board the
same player id indeed holds two entries at once. -/
theorem c7_update_appends_and_never_mutates :
    (∀ lb : List JVal, ∀ e : JVal,
      (∀ x ∈ recordUpdate lb e, x ∈ lb ∨ x = e) ∧
      (lb.length < MAX_LEADERBOARD →
        e ∈ recordUpdate lb e ∧ ∀ x ∈ lb, x ∈ recordUpdate lb e)) ∧
    recordUpdate [JVal.jobj [("id", .jnum 1), ("pumps", .jnum 5)]]
        (.jobj [("id", .jnum 1), ("pumps", .jnum 3)]) =
      [.jobj [("id", .jnum 1), ("pumps", .jnum 5)],
       .jobj [("id", .jnum 1), ("pumps", .jnum 3)]] := by
  refine ⟨fun lb e => ⟨fun x hx => recordUpdate_mem lb e hx, fun hlen => ?_⟩, rfl⟩
  constructor
  · exact recordUpdate_mem_of_small lb e hlen (by simp)
  · intro x hx
    exact recordUpdate_mem_of_small lb e hlen (by simp [hx])

lemma orderedInsert_below (x e : JVal) (t : List JVal)
    (h : keyOf x < keyOf e) :
    List.orderedInsert rge x (e :: t) = e :: List.orderedInsert rge x t := by
  have : ¬ rge x e := by
    simp only [rge]
    omega
  simp [List.orderedInsert, this]

/-- Appending an entry whose key strictly exceeds every key in the list and
re-sorting puts it at the front. -/
lemma sortDesc_append_max (l : List JVal) (e : JVal)
    (h : ∀ x ∈ l, keyOf x < keyOf e) :
    sortDesc (l ++ [e]) = e :: sortDesc l := by
  induction l with
  | nil => rfl
  | cons x l ih =>
    have hx : keyOf x < keyOf e := h x (by simp)
    have hrest : ∀ y ∈ l, keyOf y < keyOf e := fun y hy => h y (by simp [hy])
    show List.orderedInsert rge x (sortDesc (l ++ [e])) =
      e :: List.orderedInsert rge x (sortDesc l)
    rw [ih hrest, orderedInsert_below x e (sortDesc l) hx]

/-- Folding strictly increasing updates into an empty store leaves the
newest-first reversal of the inputs, truncated to capacity. -/
lemma foldl_recordUpdate_strict_inc (es : List JVal)
    (hinc : List.Pairwise (fun a b => keyOf a < keyOf b) es) :
    es.foldl recordUpdate [] = es.reverse.take MAX_LEADERBOARD := by
  induction es using List.reverseRecOn with
  | nil => rfl
  | append_singleton es e ih =>
    rw [List.pairwise_append] at hinc
    have hlt : ∀ x ∈ es, keyOf x < keyOf e := fun x hx =>
      hinc.2.2 x hx e (by simp)
    have hprev := ih hinc.1
    have hmem_lt : ∀ x ∈ es.reverse.take MAX_LEADERBOARD, keyOf x < keyOf e := by
      intro x hx
      exact hlt x (List.mem_reverse.mp ((List.take_sublist _ _).mem hx))
    have hsorted_rev : List.Sorted rge es.reverse := by
      rw [List.Sorted, List.pairwise_reverse]
      exact hinc.1.imp fun hab => le_of_lt hab
    have hsorted_take : List.Sorted rge (es.reverse.take MAX_LEADERBOARD) :=
      List.Pairwise.sublist (List.take_sublist _ _) hsorted_rev
    rw [List.foldl_append, List.foldl_cons, List.foldl_nil, hprev]
    show (sortDesc (es.reverse.take MAX_LEADERBOARD ++ [e])).take MAX_LEADERBOARD
      = (es ++ [e]).reverse.take MAX_LEADERBOARD
    have hfix : sortDesc (es.reverse.take MAX_LEADERBOARD) =
        es.reverse.take MAX_LEADERBOARD :=
      List.Sorted.insertionSort_eq hsorted_take
    rw [sortDesc_append_max _ e hmem_lt, hfix]
    have h78 : (7 : Nat) ⊓ 8 = 7 := rfl
    simp only [List.reverse_append, List.reverse_singleton, List.singleton_append,
      MAX_LEADERBOARD, List.take_succ_cons, List.take_take, h78]

/-- C4.  With capacity 8, after 10 `recordUpdate` calls whose pump counts are
strictly increasing (each a valid ScoreUpdate), the snapshot is exactly the
last 8 updates newest-first, so it holds the 8 highest-pump entries and
neither of the first 2 updates appears. -/
theorem c4_ten_increasing_updates (es : List JVal) (hlen : es.length = 10)
    (_hkeys : ∀ u ∈ es, (pumpsKey u).isSome)
    (hinc : List.Pairwise (fun a b => keyOf a < keyOf b) es) :
    es.foldl recordUpdate [] = (es.drop 2).reverse ∧
    ∀ x ∈ es.take 2, x ∉ es.foldl recordUpdate [] := by
  have hfold := foldl_recordUpdate_strict_inc es hinc
  have hsplit : es = es.take 2 ++ es.drop 2 := (List.take_append_drop 2 es).symm
  have hdroplen : (es.drop 2).reverse.length = MAX_LEADERBOARD := by
    simp [List.length_drop, hlen, MAX_LEADERBOARD]
  have hrev : es.reverse.take MAX_LEADERBOARD = (es.drop 2).reverse := by
    conv_lhs => rw [hsplit]
    rw [List.reverse_append, List.take_left' hdroplen]
  have hmain : es.foldl recordUpdate [] = (es.drop 2).reverse := by
    rw [hfold, hrev]
  refine ⟨hmain, ?_⟩
  intro x hxtake hxmem
  rw [hmain, List.mem_reverse] at hxmem
  have hpair := hinc
  rw [hsplit, List.pairwise_append] at hpair
  exact absurd (hpair.2.2 x hxtake x hxmem) (lt_irrefl _)

/-- Concrete instantiation of `c4_ten_increasing_updates` on ten updates with
pump counts 1..10: the snapshot is the last eight, newest first. -/
theorem c4_witness :
    ((List.range 10).map
        (fun i => JVal.jobj [("id", .jnum 1), ("pumps", .jnum (i + 1))])).foldl
        recordUpdate [] =
      (((List.range 10).map
        (fun i => JVal.jobj [("id", .jnum 1), ("pumps", .jnum (i + 1))])).drop
          2).reverse :=
  (c4_ten_increasing_updates _ (by decide) (by decide) (by decide)).1

/-! Broadcast and handler lemmas. -/

lemma deliver_fst (sendFails : ConnId → Bool) (cs : List ConnId) :
    (deliver sendFails cs).1 = cs.takeWhile (fun c => !sendFails c) := by
  induction cs with
  | nil => rfl
  | cons c rest ih =>
    by_cases h : sendFails c <;>
      simp [deliver, List.takeWhile_cons, h, ih]

lemma deliver_snd_isSome (sendFails : ConnId → Bool) (cs : List ConnId) :
    (deliver sendFails cs).2.isSome = cs.any sendFails := by
  induction cs with
  | nil => rfl
  | cons c rest ih =>
    by_cases h : sendFails c <;> simp [deliver, h, ih]

lemma deliver_fst_subset (sendFails : ConnId → Bool) (cs : List ConnId) :
    ∀ c ∈ (deliver sendFails cs).1, c ∈ cs := by
  rw [deliver_fst]
  intro c hc
  exact (List.takeWhile_sublist _).mem hc

lemma handleData_delivered_subset (clients : List ConnId)
    (sendFails : ConnId → Bool) (lb : List JVal) (p : Payload) :
    ∀ c ∈ (handleData clients sendFails lb p).delivered, c ∈ clients := by
  intro c hc
  cases p with
  | notUtf8 => simp [handleData] at hc
  | notJson s => simp [handleData] at hc
  | jsonVal v =>
    by_cases hok : allKeysOk (lb ++ [v]) <;>
      simp only [handleData, hok, if_true, if_false] at hc
    · exact deliver_fst_subset sendFails clients c hc
    · simp at hc

/-- C2 (amended).  When `sendall` to one broadcast recipient raises, the
`for c in clients:` loop stops there: recipients registered before the
failing one have already received the snapshot, recipients after it receive
nothing, and the exception escapes the inner `try`, so the `finally` block
closes and unregisters the *sender's* connection; the failing recipient is
not the one removed. -/
theorem c2_send_failure_kills_sender (clients : List ConnId)
    (sendFails : ConnId → Bool) (lb : List JVal) (v : JVal) (sender : ConnId)
    (hok : allKeysOk (lb ++ [v]) = true)
    (hfail : ∃ c ∈ clients, sendFails c = true) :
    (handleData clients sendFails lb (.jsonVal v)).delivered =
      clients.takeWhile (fun c => !sendFails c) ∧
    (handleData clients sendFails lb (.jsonVal v)).connClosed = true ∧
    afterHandler clients sender
        (handleData clients sendFails lb (.jsonVal v)) =
      clients.erase sender := by
  have hsome : (deliver sendFails clients).2.isSome = true := by
    rw [deliver_snd_isSome]
    exact List.any_eq_true.mpr hfail
  have h1 : (handleData clients sendFails lb (.jsonVal v)).delivered =
      (deliver sendFails clients).1 := by
    simp [handleData, hok]
  have h2 : (handleData clients sendFails lb (.jsonVal v)).connClosed = true := by
    simp [handleData, hok, hsome]
  refine ⟨?_, h2, ?_⟩
  · rw [h1, deliver_fst]
  · simp [afterHandler, h2]

/-- Concrete instantiation of `c2_send_failure_kills_sender`: three
registered clients, the middle one's `sendall` fails. -/
theorem c2_witness :
    (handleData [10, 20, 30] (fun c => decide (c = 20)) []
        (.jsonVal (.jobj [("id", .jnum 1), ("pumps", .jnum 3)]))).delivered =
      [10] ∧
    afterHandler [10, 20, 30] 10
        (handleData [10, 20, 30] (fun c => decide (c = 20)) []
          (.jsonVal (.jobj [("id", .jnum 1), ("pumps", .jnum 3)]))) =
      [20, 30] := by
  have h := c2_send_failure_kills_sender [10, 20, 30]
      (fun c => decide (c = 20)) [] (.jobj [("id", .jnum 1), ("pumps", .jnum 3)])
      10 (by decide) ⟨20, by decide, by decide⟩
  exact ⟨h.1, h.2.2⟩

/-- Counterexample to C2 as stated: with registered clients `[10, 20, 30]`,
sender 10, and the send to 20 failing, client 30 does *not* still receive the
broadcast, the failed recipient 20 is *not* unregistered, and the sender's
own loop is terminated (its connection 10 is the one removed). -/
theorem c2_counterexample :
    (handleData [10, 20, 30] (fun c => decide (c = 20)) []
        (.jsonVal (.jobj [("id", .jnum 1), ("pumps", .jnum 3)]))).delivered =
      [10] ∧
    (30 : ConnId) ∉
      (handleData [10, 20, 30] (fun c => decide (c = 20)) []
        (.jsonVal (.jobj [("id", .jnum 1), ("pumps", .jnum 3)]))).delivered ∧
    (handleData [10, 20, 30] (fun c => decide (c = 20)) []
        (.jsonVal (.jobj [("id", .jnum 1), ("pumps", .jnum 3)]))).connClosed =
      true ∧
    afterHandler [10, 20, 30] 10
        (handleData [10, 20, 30] (fun c => decide (c = 20)) []
          (.jsonVal (.jobj [("id", .jnum 1), ("pumps", .jnum 3)]))) =
      [20, 30] := by
  refine ⟨rfl, ?_, rfl, rfl⟩
  decide

/-- C3 (amended).  A payload that decodes as UTF-8 but fails to parse as JSON
hits the `except json.JSONDecodeError` branch: the condition is logged, the
message is dropped (leaderboard unchanged, nothing broadcast), the
connection stays open, and the read loop goes on to process the remaining
messages exactly as it would have without the malformed one. -/
theorem c3_bad_json_logged_and_dropped (clients : List ConnId)
    (sendFails : ConnId → Bool) (lb : List JVal) (s : String)
    (rest : List Payload) :
    handleData clients sendFails lb (.notJson s) =
      { leaderbord := lb, delivered := [], connClosed := false,
        loggedParseError := true } ∧
    readLoop clients sendFails lb (.notJson s :: rest) =
      ((readLoop clients sendFails lb rest).1,
       (readLoop clients sendFails lb rest).2.1,
       (readLoop clients sendFails lb rest).2.2 + 1) := by
  constructor
  · rfl
  · simp [readLoop, handleData]

/-- Counterexample to C3 as stated: a payload that is not valid UTF-8 makes
`data.decode()` raise `UnicodeDecodeError`, which the
`except json.JSONDecodeError` branch does not catch — nothing is logged by
that branch and the exception terminates the connection's read loop (one
message consumed, loop closed) instead of dropping the message and
continuing. -/
theorem c3_counterexample :
    (handleData [] (fun _ => false) [] .notUtf8).connClosed = true ∧
    (handleData [] (fun _ => false) [] .notUtf8).loggedParseError = false ∧
    (readLoop [] (fun _ => false) [] [.notUtf8, .notJson "x"]).2.2 = 1 ∧
    (readLoop [] (fun _ => false) [] [.notUtf8, .notJson "x"]).2.1 = true := by
  refine ⟨rfl, rfl, rfl, rfl⟩

/-- C10.  A payload that decodes and parses as JSON but has no `"pumps"` key
convertible by `int(...)` is appended to the global list, after which the
sort's key computation raises outside the `except json.JSONDecodeError`
branch: nothing is logged there, nothing is broadcast, and the exception
terminates that sender's read loop, whose `finally` block closes the
connection. -/
theorem c10_unconvertible_pumps_crashes_handler (clients : List ConnId)
    (sendFails : ConnId → Bool) (lb : List JVal) (v : JVal)
    (hbad : pumpsKey v = none) (rest : List Payload) :
    handleData clients sendFails lb (.jsonVal v) =
      { leaderbord := lb ++ [v], delivered := [], connClosed := true,
        loggedParseError := false } ∧
    readLoop clients sendFails lb (.jsonVal v :: rest) =
      (lb ++ [v], true, 1) := by
  have hnotok : allKeysOk (lb ++ [v]) = false := by
    simp [allKeysOk, hbad]
  constructor
  · simp [handleData, hnotok]
  · simp [readLoop, handleData, hnotok]

/-- Concrete instantiation of `c10_unconvertible_pumps_crashes_handler`: the
parsed object `\x7b"id": 1\x7d` has no `"pumps"` key, so the handler crashes
and the connection is closed after one message. -/
theorem c10_witness :
    handleData [0] (fun _ => false) [] (.jsonVal (.jobj [("id", .jnum 1)])) =
      { leaderbord := [.jobj [("id", .jnum 1)]], delivered := [],
        connClosed := true, loggedParseError := false } :=
  (c10_unconvertible_pumps_crashes_handler [0] (fun _ => false) []
    (.jobj [("id", .jnum 1)]) rfl []).1

/-! Accept-loop and registry lemmas. -/

lemma srvRun_ids_invariant (evs : List SrvEvent) :
    ∀ st : RegState,
      st.next_player_id = st.assigned.length + 1 →
      st.assigned.map Prod.snd = List.range' 1 st.assigned.length →
      (srvRun st evs).1.next_player_id =
          (srvRun st evs).1.assigned.length + 1 ∧
        (srvRun st evs).1.assigned.map Prod.snd =
          List.range' 1 (srvRun st evs).1.assigned.length := by
  induction evs with
  | nil => intro st h1 h2; exact ⟨h1, h2⟩
  | cons ev evs ih =>
    intro st h1 h2
    have hrun : (srvRun st (ev :: evs)).1 = (srvRun (srvStep st ev).1 evs).1 := rfl
    rw [hrun]
    cases ev with
    | connect c =>
      by_cases hc : st.clients.length < MAX_PLAYERS
      · apply ih
        · simp [srvStep, hc, h1]
        · simp only [srvStep, hc, if_true, List.map_append, List.map_cons,
            List.map_nil, List.length_append, List.length_cons, List.length_nil]
          rw [h2, h1, List.range'_concat]
          simp [Nat.add_comm]

      · apply ih <;> simp [srvStep, hc, h1, h2]
    | disconnect c =>
      apply ih <;> simp [srvStep, h1, h2]

/-- C6.  Every registered connection is assigned a player identifier; over
any sequence of connects and disconnects the identifiers ever assigned are
exactly `1, 2, 3, …` in registration order — each is a positive integer,
they strictly increase, and none is ever reused, even after the connection
that held it disconnects. -/
theorem c6_player_ids_positive_unique_increasing (evs : List SrvEvent) :
    (srvRun initState evs).1.assigned.map Prod.snd =
        List.range' 1 (srvRun initState evs).1.assigned.length ∧
    (∀ pid ∈ (srvRun initState evs).1.assigned.map Prod.snd, 1 ≤ pid) ∧
    List.Pairwise (· < ·) ((srvRun initState evs).1.assigned.map Prod.snd) ∧
    ((srvRun initState evs).1.assigned.map Prod.snd).Nodup := by
  have h := srvRun_ids_invariant evs initState rfl rfl
  refine ⟨h.2, ?_, ?_, ?_⟩
  · intro pid hp
    rw [h.2] at hp
    rcases List.mem_range'.mp hp with ⟨i, _, rfl⟩
    omega
  · rw [h.2]
    exact List.pairwise_lt_range' 1 _
  · rw [h.2]
    exact List.nodup_range' 1 _

/-- Concrete instantiation of `c6_player_ids_positive_unique_increasing`:
after connect, connect, disconnect, connect the assigned ids are 1, 2, 3 —
the id freed by the disconnect is not reused. -/
theorem c6_witness :
    (srvRun initState
        [.connect 7, .connect 8, .disconnect 7, .connect 9]).1.assigned.map
      Prod.snd = [1, 2, 3] :=
  ((c6_player_ids_positive_unique_increasing
    [.connect 7, .connect 8, .disconnect 7, .connect 9]).1).trans (by decide)

/-- Whether an accept-loop action was a rejection. -/
def isRejected : ConnId × ConnAction → Bool
  | (_, .rejected _) => true
  | (_, .registered _) => false

/-- C5.  When five clients are already connected (capacity `MAX_PLAYERS = 5`)
and a sixth connects, the accept loop sends it the fixed rejection text and
closes it: among six connections exactly one is rejected, the rejected one is
never registered (it appears in no state of the run's `clients` list) and is
never a broadcast recipient of any handler step. -/
theorem c5_sixth_connection_rejected (a b c d e f : ConnId)
    (hf : f ∉ [a, b, c, d, e]) :
    (srvRun initState ([a, b, c, d, e, f].map SrvEvent.connect)).2 =
      [(a, .registered 1), (b, .registered 2), (c, .registered 3),
       (d, .registered 4), (e, .registered 5),
       (f, .rejected rejectionMessage)] ∧
    (srvRun initState ([a, b, c, d, e, f].map SrvEvent.connect)).1.clients =
      [a, b, c, d, e] ∧
    (∀ st ∈ srvTrace initState ([a, b, c, d, e, f].map SrvEvent.connect),
      f ∉ st.clients) ∧
    (∀ st ∈ srvTrace initState ([a, b, c, d, e, f].map SrvEvent.connect),
      ∀ sendFails : ConnId → Bool, ∀ lb : List JVal, ∀ p : Payload,
        f ∉ (handleData st.clients sendFails lb p).delivered) ∧
    ((srvRun initState ([a, b, c, d, e, f].map SrvEvent.connect)).2.filter
      isRejected).length = 1 := by
  have hsplit : ¬(f = a ∨ f = b ∨ f = c ∨ f = d ∨ f = e) := by
    simpa using hf
  have hna : f ≠ a := fun h => hsplit (Or.inl h)
  have hnb : f ≠ b := fun h => hsplit (Or.inr (Or.inl h))
  have hnc : f ≠ c := fun h => hsplit (Or.inr (Or.inr (Or.inl h)))
  have hnd : f ≠ d := fun h => hsplit (Or.inr (Or.inr (Or.inr (Or.inl h))))
  have hnee : f ≠ e := fun h => hsplit (Or.inr (Or.inr (Or.inr (Or.inr h))))
  have htr : srvTrace initState ([a, b, c, d, e, f].map SrvEvent.connect) =
      [⟨[], 1, []⟩,
       ⟨[a], 2, [(a, 1)]⟩,
       ⟨[a, b], 3, [(a, 1), (b, 2)]⟩,
       ⟨[a, b, c], 4, [(a, 1), (b, 2), (c, 3)]⟩,
       ⟨[a, b, c, d], 5, [(a, 1), (b, 2), (c, 3), (d, 4)]⟩,
       ⟨[a, b, c, d, e], 6, [(a, 1), (b, 2), (c, 3), (d, 4), (e, 5)]⟩,
       ⟨[a, b, c, d, e], 6, [(a, 1), (b, 2), (c, 3), (d, 4), (e, 5)]⟩] := rfl
  have hmem : ∀ st ∈ srvTrace initState ([a, b, c, d, e, f].map SrvEvent.connect),
      f ∉ st.clients := by
    rw [htr]
    intro st hst
    simp only [List.mem_cons, List.not_mem_nil, or_false] at hst
    rcases hst with rfl | rfl | rfl | rfl | rfl | rfl | rfl <;>
      simp [List.mem_cons, List.not_mem_nil, hna, hnb, hnc, hnd, hnee]
  have h1 : (srvRun initState ([a, b, c, d, e, f].map SrvEvent.connect)).2 =
      [(a, .registered 1), (b, .registered 2), (c, .registered 3),
       (d, .registered 4), (e, .registered 5),
       (f, .rejected rejectionMessage)] := rfl
  refine ⟨h1, rfl, hmem, ?_, ?_⟩
  · intro st hst sendFails lb p hdel
    exact hmem st hst
      (handleData_delivered_subset st.clients sendFails lb p f hdel)
  · rw [h1]
    rfl

/-- Concrete instantiation of `c5_sixth_connection_rejected` with connections
0–5: the action log registers 0–4 and rejects 5 with the fixed message. -/
theorem c5_witness :
    (srvRun initState ([0, 1, 2, 3, 4, 5].map SrvEvent.connect)).2 =
      [(0, .registered 1), (1, .registered 2), (2, .registered 3),
       (3, .registered 4), (4, .registered 5),
       (5, .rejected rejectionMessage)] :=
  (c5_sixth_connection_rejected 0 1 2 3 4 5 (by decide)).1

/-! Client lemmas. -/

lemma listenLoop_stopped (st : NetClientState) (h : st.running = false) :
    ∀ evs : List ListenEvent, listenLoop st evs = (st, 0) := by
  intro evs
  cases evs with
  | nil => rfl
  | cons ev rest => simp [listenLoop, h]

/-- C8.  For every pump count and every outcome of the network write,
`send_update` serializes `\x7b"id": …, "pumps": …\x7d`, attempts the write,
and returns normally: the result is always `ok`, and when the write raised an
exception the call returns the internal error log instead of propagating. -/
theorem c8_send_update_never_raises (player_id : JVal) (pumps : Int)
    (oc : Except PyErr Unit) :
    (∃ logs : List String, send_update player_id pumps oc =
      .ok (jsonDumps (.jobj [("id", player_id), ("pumps", .jnum pumps)]),
        logs)) ∧
    ∀ e : PyErr, oc = .error e →
      send_update player_id pumps oc =
        .ok (jsonDumps (.jobj [("id", player_id), ("pumps", .jnum pumps)]),
          ["[ERROR] Sending failed: " ++ e.msg]) := by
  cases oc with
  | ok u => exact ⟨⟨[], rfl⟩, fun e h => by cases h⟩
  | error e => exact ⟨⟨_, rfl⟩, fun e' h => by cases h; rfl⟩

/-- Concrete instantiation of `c8_send_update_never_raises`: a failing write
returns normally with the logged error. -/
theorem c8_witness :
    send_update (.jstr "7") 4 (.error ⟨"Connection reset"⟩) =
      .ok (jsonDumps (.jobj [("id", .jstr "7"), ("pumps", .jnum 4)]),
        ["[ERROR] Sending failed: " ++ "Connection reset"]) :=
  (c8_send_update_never_raises (.jstr "7") 4
    (.error ⟨"Connection reset"⟩)).2 ⟨"Connection reset"⟩ rfl

/-- C9 (amended).  The background listener terminates — `running` is set to
`False` and no further read is issued — whenever its read *raises* (which
covers the socket being torn down under a blocked read, and BART.py's own
`close()`, which clears `running` before closing the socket); but a read that
returns empty bytes, the stream-level signal of a clean remote close, fails
the `if data:` test and is ignored: `running` stays `True` and the loop
issues the next read. -/
theorem c9_listener_stops_on_read_error (lb : JVal) (st : NetClientState)
    (rest : List ListenEvent) :
    listenLoop { running := true, leaderboard := lb } (.fail :: rest) =
      ({ running := false, leaderboard := lb }, 1) ∧
    (listenStep st .fail).running = false ∧
    (st.running = false → listenLoop st rest = (st, 0)) := by
  refine ⟨?_, rfl, fun h => listenLoop_stopped st h rest⟩
  have hstop :=
    listenLoop_stopped { running := false, leaderboard := lb } rfl rest
  simp [listenLoop, listenStep, hstop]

/-- Concrete instantiation of `c9_listener_stops_on_read_error`: with
`running` already false, no read is issued at all. -/
theorem c9_witness :
    listenLoop { running := false, leaderboard := JVal.jarr [] }
        [ListenEvent.empty] =
      ({ running := false, leaderboard := JVal.jarr [] }, 0) :=
  (c9_listener_stops_on_read_error (JVal.jarr [])
    { running := false, leaderboard := JVal.jarr [] } [ListenEvent.empty]).2.2
    rfl

/-- Counterexample to C9 as stated: after the peer closes the connection the
listener's reads return empty bytes; two such reads leave `running` true and
the loop keeps issuing reads instead of terminating. -/
theorem c9_counterexample :
    (listenLoop { running := true, leaderboard := JVal.jarr [] }
      [ListenEvent.empty, ListenEvent.empty]).2 = 2 ∧
    (listenLoop { running := true, leaderboard := JVal.jarr [] }
      [ListenEvent.empty, ListenEvent.empty]).1.running = true :=
  ⟨rfl, rfl⟩

/-- Concrete instantiation of `c7_update_appends_and_never_mutates`: on a
one-entry board the update keeps the old entry and appends the new one. -/
theorem c7_witness :
    (JVal.jobj [("id", .jnum 1), ("pumps", .jnum 3)]) ∈
      recordUpdate [JVal.jobj [("id", .jnum 1), ("pumps", .jnum 5)]]
        (.jobj [("id", .jnum 1), ("pumps", .jnum 3)]) ∧
    (JVal.jobj [("id", .jnum 1), ("pumps", .jnum 5)]) ∈
      recordUpdate [JVal.jobj [("id", .jnum 1), ("pumps", .jnum 5)]]
        (.jobj [("id", .jnum 1), ("pumps", .jnum 3)]) := by
  have h := (c7_update_appends_and_never_mutates.1
      [JVal.jobj [("id", .jnum 1), ("pumps", .jnum 5)]]
      (.jobj [("id", .jnum 1), ("pumps", .jnum 3)])).2
      (by simp [MAX_LEADERBOARD])
  exact ⟨h.1, h.2 _ (by simp)⟩
